import Mathlib

/-!
Verification of the interactive application engine of the `bbq` repository
(crates/bbq-cli/src/tui/app.rs, crates/bbq-cli/src/tui/types.rs and
crates/bbq/src/{model,validate}.rs), as a shallow embedding in Lean.

Conventions of the embedding:
* `String` stands for Rust `String`/`&str`; operations that Rust performs on
  `str` (trim, starts_with, to_ascii_lowercase) are re-implemented over the
  character list so that they are kernel-computable.
* `HashMap<String, V>` becomes an association list `List (String × V)` looked
  up by first match; `HashSet<String>` becomes a duplicate-free-by-insertion
  `List String` used through membership.
* `u64` counters become `Nat` reduced modulo `2 ^ 64` exactly where the Rust
  code uses `wrapping_add`.
* Real-time fields (`Instant` deadlines and start times) are omitted: they
  only drive display expiry and display ordering, which no claim touches.
* External collaborators (the VCS provider's `default_branch`, the config
  store's `default_branch_name`) are passed in as an explicit `Env` record of
  functions, mirroring the spec's collaborator contract.
* `worker_tx.send(...)` is modelled by appending the request to a `sent` log
  carried in the application state.
-/

deriving instance DecidableEq for Except

namespace Bbq

/-- Mirrors `Repo` in crates/bbq/src/model.rs; `path: PathBuf` is kept as a
plain string (an opaque handle for the engine). -/
structure Repo where
  name : String
  path : String
deriving DecidableEq

/-- Mirrors `Worktree` in crates/bbq/src/model.rs. -/
structure Worktree where
  path : String
  branch : Option String
  head : Option String
deriving DecidableEq

/-- Splits a character list on `/`, mirroring path-component structure. -/
def splitSlash (cur : List Char) : List Char → List (List Char)
  | [] => [cur.reverse]
  | c :: rest => if c = '/' then cur.reverse :: splitSlash [] rest else splitSlash (c :: cur) rest

/-- Models `Path::file_name`: the final non-empty component of the path.
(The embedding assumes paths without `.`/`..` components, which is what the
engine ever stores in a `Worktree`.) -/
def fileName (path : String) : Option String :=
  ((splitSlash [] path.data).reverse.find? (fun part => !part.isEmpty)).map
    (fun part => String.mk part)

/-- Mirrors `Worktree::display_name` in crates/bbq/src/model.rs:
file name of the path, else the branch, else the full path. -/
def Worktree.displayName (w : Worktree) : String :=
  match fileName w.path with
  | some n => n
  | none =>
    match w.branch with
    | some b => b
    | none => w.path

/-- Mirrors `ChangedFile` in crates/bbq-cli/src/tui/types.rs. -/
structure ChangedFile where
  path : String
  added : Nat
  removed : Nat
deriving DecidableEq

/-- Mirrors `WorktreeEntry` in crates/bbq-cli/src/tui/types.rs. -/
structure WorktreeEntry where
  worktree : Worktree
  headAuthor : Option String
  headMessage : Option String
  upstream : Option String
  syncStatus : String
  worktreePath : String
  changedFiles : List ChangedFile
deriving DecidableEq

/-- Mirrors `TreeItemKind` in crates/bbq-cli/src/tui/types.rs. -/
inductive TreeItemKind where
  | repo (name : String) (expanded : Bool) (worktreeCount : Nat)
  | worktree (repo : String) (entry : WorktreeEntry)
deriving DecidableEq

/-- Mirrors `TreeItem` in crates/bbq-cli/src/tui/types.rs. -/
structure TreeItem where
  left : String
  right : String
  kind : TreeItemKind
deriving DecidableEq

/-- Mirrors `TreeKey` in crates/bbq-cli/src/tui/types.rs. -/
inductive TreeKey where
  | repo (name : String)
  | worktree (repo : String) (name : String)
deriving DecidableEq

/-- Mirrors `StatusTone` in crates/bbq-cli/src/tui/types.rs. -/
inductive StatusTone where
  | success
  | error
deriving DecidableEq

/-- Mirrors `StatusMessage` (the real-time `deadline` field is omitted). -/
structure StatusMessage where
  text : String
  tone : StatusTone
deriving DecidableEq

/-- Mirrors `LoadingPriority` in crates/bbq-cli/src/tui/types.rs. -/
inductive LoadingPriority where
  | background
  | action
deriving DecidableEq

/-- Mirrors `LoadingGroup` in crates/bbq-cli/src/tui/types.rs. -/
inductive LoadingGroup where
  | envInfo
  | repos
  | worktrees
  | action
deriving DecidableEq

/-- Mirrors `LoadingMessage` (the real-time `started_at` field is omitted). -/
structure LoadingMessage where
  group : LoadingGroup
  text : String
  priority : LoadingPriority
deriving DecidableEq

/-- Mirrors `Focus` in crates/bbq-cli/src/tui/types.rs. -/
inductive Focus where
  | list
  | input
deriving DecidableEq

/-- Mirrors `InputKind` in crates/bbq-cli/src/tui/types.rs. -/
inductive InputKind where
  | checkoutRepo
  | createWorktreeName (repo : Repo)
  | createWorktreeSource (repo : Repo) (name : String)
  | createWorktreeBranch (repo : Repo) (name : String) (sourceBranch : String)
  | deleteRepo (name : String)
  | deleteWorktree (repo : Repo) (name : String)
  | deleteWorktreeForce (repo : Repo) (name : String)
deriving DecidableEq

/-- Mirrors `InputState` in crates/bbq-cli/src/tui/types.rs. -/
structure InputState where
  kind : InputKind
  buffer : String
  origin : Focus
deriving DecidableEq

/-- Mirrors `EnvInfo` in crates/bbq-cli/src/tui/types.rs. -/
structure EnvInfo where
  homeDir : Option String := none
  gitVersion : Option String := none
  ghVersion : Option String := none
deriving DecidableEq

/-- Mirrors `AllData` in crates/bbq-cli/src/tui/types.rs (maps as assoc lists). -/
structure AllData where
  repos : List Repo
  repoWorktrees : List (String × List WorktreeEntry)
  repoDisplay : List (String × String)
  error : Option String
deriving DecidableEq

/-- Mirrors `WorkerRequest` in crates/bbq-cli/src/tui/types.rs. -/
inductive WorkerRequest where
  | loadEnvInfo
  | loadAll (requestId : Nat)
  | checkForUpdate
  | runUpgrade
  | checkoutRepo (url : String)
  | createWorktree (repo : Repo) (name : String) (branch : String) (sourceBranch : String)
  | deleteRepo (name : String)
  | deleteWorktree (repo : Repo) (name : String) (force : Bool)
deriving DecidableEq

/-- Mirrors `WorkerEvent` in crates/bbq-cli/src/tui/types.rs; `Result<T, String>`
becomes `Except String T`.  The `worktreeScriptStarted` fields follow the
destructuring in app.rs (`{ kind, path }`), which is what the handler under
verification consumes. -/
inductive WorkerEvent where
  | allDataLoaded (requestId : Nat) (result : Except String AllData)
  | updateCheckResult (latest : Option String)
  | upgradeResult (result : Except String Unit)
  | fsChanged
  | envInfoLoaded (homeDir : Option String) (gitVersion : Option String)
      (ghVersion : Option String)
  | checkoutRepoResult (result : Except String Repo)
  | worktreeScriptStarted (kind : String) (path : String)
  | createWorktreeResult (repoName : String) (result : Except String Worktree)
  | deleteRepoResult (name : String) (result : Except String Unit)
  | deleteWorktreeResult (repoName : String) (worktreeName : String)
      (result : Except String Unit)

/-- Mirrors `UpdatePromptState` in crates/bbq-cli/src/tui/app.rs. -/
structure UpdatePromptState where
  currentVersion : String
  latestVersion : String
  selected : Nat
  running : Bool
  completed : Bool
deriving DecidableEq

/-- Rust `char::is_whitespace` restricted to the ASCII whitespace the engine
ever meets (space, tab, carriage return, newline). -/
def isWhitespaceChar (c : Char) : Bool :=
  c = ' ' || c = '\t' || c = '\r' || c = '\n'

/-- Rust `str::trim`: drop whitespace from both ends. -/
def rustTrim (s : String) : String :=
  String.mk (((s.data.dropWhile isWhitespaceChar).reverse.dropWhile isWhitespaceChar).reverse)

/-- Rust `char::to_ascii_lowercase`. -/
def asciiLowerChar (c : Char) : Char :=
  if 'A' ≤ c ∧ c ≤ 'Z' then Char.ofNat (c.toNat + 32) else c

/-- Rust `str::to_ascii_lowercase`. -/
def asciiLower (s : String) : String :=
  String.mk (s.data.map asciiLowerChar)

/-- Rust `s.starts_with(pre)`. -/
def strStartsWith (s pre : String) : Bool :=
  pre.data.isPrefixOf s.data

/-- Rust `s.ends_with(suf)`. -/
def strEndsWith (s suf : String) : Bool :=
  suf.data.reverse.isPrefixOf s.data.reverse

/-- Mirrors `delete_confirmed` in crates/bbq-cli/src/tui/app.rs. -/
def deleteConfirmed (input : String) : Bool :=
  let trimmed := rustTrim input
  if trimmed = "" then false
  else
    let normalized := asciiLower trimmed
    strStartsWith "yes" normalized

/-- Mirrors `discard_confirmed` in crates/bbq-cli/src/tui/app.rs. -/
def discardConfirmed (input : String) : Bool :=
  let trimmed := rustTrim input
  if trimmed = "" then false
  else
    let normalized := asciiLower trimmed
    strStartsWith "discard" normalized

/-- Mirrors `is_worktree_char` in crates/bbq/src/validate.rs
(`Char.isAlphanum` is exactly ASCII alphanumeric). -/
def isWorktreeChar (ch : Char) : Bool :=
  ch.isAlphanum || ch = '-' || ch = '_' || ch = '.'

/-- Mirrors `is_branch_char` in crates/bbq/src/validate.rs. -/
def isBranchChar (ch : Char) : Bool :=
  isWorktreeChar ch || ch = '/'

/-- Mirrors `validate_worktree_name` in crates/bbq/src/validate.rs. -/
def validateWorktreeName (name : String) : Except String Unit :=
  if name = "" then .error "Worktree name required"
  else if name.data.any isWhitespaceChar then .error "Worktree name cannot contain spaces"
  else if name.data.any (fun ch => !isWorktreeChar ch) then
    .error "Worktree name can only use letters, numbers, \x27-\x27, \x27_\x27, or \x27.\x27"
  else .ok ()

/-- Mirrors `validate_branch_name` in crates/bbq/src/validate.rs. -/
def validateBranchName (name : String) : Except String Unit :=
  if name = "" then .error "Branch name required"
  else if name.data.any isWhitespaceChar then .error "Branch name cannot contain spaces"
  else if strStartsWith name "/" || strEndsWith name "/" then
    .error "Branch name cannot start or end with \x27/\x27"
  else if name.data.any (fun ch => !isBranchChar ch) then
    .error "Branch name can only use letters, numbers, \x27-\x27, \x27_\x27, \x27.\x27, or \x27/\x27"
  else .ok ()

/-- First-match lookup in an association list, modelling `HashMap::get`. -/
def mapGet (m : List (String × α)) (k : String) : Option α :=
  (m.find? (fun p => p.1 == k)).map (fun p => p.2)

/-- Models `HashSet::insert` on the duplicate-free list representation. -/
def insertSet (l : List String) (x : String) : List String :=
  if l.contains x then l else l ++ [x]

/-- The fields of `App` (crates/bbq-cli/src/tui/app.rs) that the engine's
event handling and input submission read or write.  Config-only fields
(theme index, editor/terminal commands, setup wizard queue) live behind the
config collaborator and are omitted.  `tree_state : ListState` is represented
by its selected index.  `worker_tx.send` is modelled by the `sent` log. -/
structure AppState where
  repos : List Repo
  treeItems : List TreeItem
  selected : Option Nat
  repoWorktrees : List (String × List WorktreeEntry)
  repoDisplay : List (String × String)
  expandedRepos : List String
  focus : Focus
  input : Option InputState
  status : Option StatusMessage
  loading : List LoadingMessage
  envInfo : EnvInfo
  requestSeq : Nat
  pendingAllRequest : Option Nat
  needsReload : Bool
  desiredRepoSelection : Option String
  desiredWorktreeSelection : Option (String × String)
  updatePrompt : Option UpdatePromptState
  sent : List WorkerRequest
deriving DecidableEq

/-- External collaborators used by `submit_input`: the VCS provider's
`default_branch` (crates/bbq/src/git.rs) and the config store's
`default_branch_name` (crates/bbq-cli/src/config.rs). -/
structure Env where
  defaultBranch : Repo → Except String (Option String)
  defaultBranchName : String → String

/-- Mirrors the `DEFAULT_SOURCE_BRANCH` constant in app.rs. -/
def DEFAULT_SOURCE_BRANCH : String := "origin/main"

/-- Mirrors `default_source_branch` in app.rs:
`bbq::default_branch(repo).ok().flatten().unwrap_or("origin/main")`. -/
def defaultSourceBranch (env : Env) (repo : Repo) : String :=
  match env.defaultBranch repo with
  | .ok (some branch) => branch
  | _ => DEFAULT_SOURCE_BRANCH

/-- Models `worker_tx.send` by appending to the request log. -/
def sendRequest (s : AppState) (r : WorkerRequest) : AppState :=
  { s with sent := s.sent ++ [r] }

/-- Mirrors `App::set_status_tone` (deadline computation omitted with the
real-time clock; an empty message clears the status, as in the source). -/
def setStatusTone (s : AppState) (message : String) (tone : StatusTone) : AppState :=
  if message = "" then { s with status := none }
  else { s with status := some { text := message, tone := tone } }

/-- Mirrors `App::set_status`. -/
def setStatus (s : AppState) (message : String) : AppState :=
  setStatusTone s message .success

/-- Mirrors `App::set_error`. -/
def setError (s : AppState) (message : String) : AppState :=
  setStatusTone s message .error

/-- Mirrors `App::clear_status`. -/
def clearStatus (s : AppState) : AppState :=
  { s with status := none }

/-- Mirrors `App::clear_loading`. -/
def clearLoading (s : AppState) (group : LoadingGroup) : AppState :=
  { s with loading := s.loading.filter (fun item => item.group != group) }

/-- Mirrors `App::set_loading` (`started_at` omitted with the clock). -/
def setLoading (s : AppState) (group : LoadingGroup) (message : String)
    (priority : LoadingPriority) : AppState :=
  if message = "" then clearLoading s group
  else
    let s := if priority = .action then clearStatus s else s
    { s with loading := s.loading.filter (fun item => item.group != group)
        ++ [{ group := group, text := message, priority := priority }] }

/-- Modulus of the wrapping `u64` request counter. -/
def u64Limit : Nat := 2 ^ 64

/-- Mirrors `App::next_request_id` (`wrapping_add(1)` on a `u64`). -/
def nextRequestId (s : AppState) : AppState × Nat :=
  let seq := (s.requestSeq + 1) % u64Limit
  ({ s with requestSeq := seq }, seq)

/-- Mirrors `App::request_all_data`. -/
def requestAllData (s : AppState) (silent : Bool) : AppState :=
  let p := nextRequestId s
  let s := { p.1 with pendingAllRequest := some p.2, needsReload := false }
  let s :=
    if silent then s
    else
      setLoading (setLoading s .repos "Loading repos" .background)
        .worktrees "Loading worktrees" .background
  sendRequest s (.loadAll p.2)

/-- Mirrors `App::display_repo_name`. -/
def displayRepoName (s : AppState) (repoName : String) : String :=
  (mapGet s.repoDisplay repoName).getD repoName

/-- Mirrors `App::format_worktree_label`. -/
def formatWorktreeLabel (s : AppState) (repoName worktreeName : String) : String :=
  displayRepoName s repoName ++ "/" ++ worktreeName

/-- Mirrors `App::worktree_change_count`. -/
def worktreeChangeCount (s : AppState) (repo : Repo) (name : String) : Option Nat :=
  (mapGet s.repoWorktrees repo.name).bind (fun entries =>
    (entries.find? (fun entry => entry.worktree.displayName == name)).map
      (fun entry => entry.changedFiles.length))

/-- The repo row pushed by `build_tree_items` in app.rs: display name on the
left, and a `Repo` kind carrying the name, expansion flag and worktree
count. -/
def repoTreeItem (repoDisplay : List (String × String))
    (repoWorktrees : List (String × List WorktreeEntry)) (expandedRepos : List String)
    (repo : Repo) : TreeItem :=
  { left := (mapGet repoDisplay repo.name).getD repo.name,
    right := "",
    kind := .repo repo.name (expandedRepos.contains repo.name)
      ((mapGet repoWorktrees repo.name).getD []).length }

/-- The worktree row pushed by `build_tree_items` in app.rs: indented branch
name (or "detached") on the left, display name on the right. -/
def worktreeTreeItem (repoName : String) (entry : WorktreeEntry) : TreeItem :=
  { left := "  " ++ (entry.worktree.branch.getD "detached"),
    right := entry.worktree.displayName,
    kind := .worktree repoName entry }

/-- Mirrors `build_tree_items` in app.rs: an imperative push loop over the
repos, pushing one repo row and, when that repo is expanded, one row per
worktree entry. -/
def buildTreeItems (repos : List Repo) (repoWorktrees : List (String × List WorktreeEntry))
    (repoDisplay : List (String × String)) (expandedRepos : List String) : List TreeItem :=
  repos.foldl
    (fun items repo =>
      let items := items ++ [repoTreeItem repoDisplay repoWorktrees expandedRepos repo]
      if expandedRepos.contains repo.name then
        items ++ ((mapGet repoWorktrees repo.name).getD []).map (worktreeTreeItem repo.name)
      else items)
    []

/-- Mirrors `App::clamp_selection` on the selected index. -/
def clampSelection (selected : Option Nat) (len : Nat) : Option Nat :=
  if len = 0 then none
  else some (min (selected.getD 0) (len - 1))

/-- Mirrors `move_state` in app.rs (wrap-around selection move). -/
def moveState (selected : Option Nat) (len : Nat) (delta : Int) : Option Nat :=
  if len = 0 then none
  else
    let current := selected.getD 0
    let next :=
      if delta < 0 then (if current = 0 then len - 1 else current - 1)
      else (if current ≥ len - 1 then 0 else current + 1)
    some next

/-- Mirrors `App::move_selection`. -/
def moveSelection (s : AppState) (delta : Int) : AppState :=
  match s.focus with
  | .list => { s with selected := moveState s.selected s.treeItems.length delta }
  | .input => s

/-- Mirrors `tree_item_matches_key` in app.rs. -/
def treeItemMatchesKey (item : TreeItem) (key : TreeKey) : Bool :=
  match item.kind, key with
  | .repo name _ _, .repo keyName => name == keyName
  | .worktree repo entry, .worktree keyRepo keyName =>
    if repo != keyRepo then false
    else if entry.worktree.displayName == keyName then true
    else
      match entry.worktree.branch with
      | some branch => branch == keyName
      | none => false
  | _, _ => false

/-- Mirrors `tree_item_key` in app.rs. -/
def treeItemKey (item : TreeItem) : TreeKey :=
  match item.kind with
  | .repo name _ _ => .repo name
  | .worktree repo entry => .worktree repo entry.worktree.displayName

/-- Index of the first list element satisfying the predicate (the
`iter().enumerate().find(...)` idiom of `App::select_tree_key`). -/
def firstIdxWhere (p : α → Bool) : List α → Option Nat
  | [] => none
  | a :: l => if p a then some 0 else (firstIdxWhere p l).map (· + 1)

/-- Mirrors `App::selected_tree_item`. -/
def selectedTreeItem (s : AppState) : Option TreeItem :=
  s.selected.bind (fun idx => s.treeItems.get? idx)

/-- Mirrors `App::selected_tree_key`. -/
def selectedTreeKey (s : AppState) : Option TreeKey :=
  (selectedTreeItem s).map treeItemKey

/-- Mirrors `App::select_tree_key` (its boolean result is unused by the
claims, so only the state effect is modelled). -/
def selectTreeKey (s : AppState) (key : TreeKey) : AppState :=
  match firstIdxWhere (fun item => treeItemMatchesKey item key) s.treeItems with
  | some idx => { s with selected := some idx }
  | none => s

/-- Mirrors `App::rebuild_tree_items`. -/
def rebuildTreeItems (s : AppState) (preferred : Option TreeKey) : AppState :=
  let items := buildTreeItems s.repos s.repoWorktrees s.repoDisplay s.expandedRepos
  let s := { s with treeItems := items,
                    selected := clampSelection s.selected items.length }
  match preferred with
  | some key => selectTreeKey s key
  | none => s

/-- The `match result` body of the `AllDataLoaded` arm of
`App::handle_worker_events` (after the staleness check and loading-indicator
clearing, before the `needs_reload` re-issue). -/
def applyAllDataResult (s : AppState) : Except String AllData → AppState
  | .ok data =>
    let prevKey := selectedTreeKey s
    let s := { s with repos := data.repos,
                      repoWorktrees := data.repoWorktrees,
                      repoDisplay := data.repoDisplay }
    let s := { s with expandedRepos :=
      s.expandedRepos.filter (fun name => s.repos.any (fun repo => repo.name == name)) }
    let pick :=
      match s.desiredWorktreeSelection with
      | some (repoName, worktreeName) =>
        ({ s with desiredWorktreeSelection := none,
                  expandedRepos := insertSet s.expandedRepos repoName },
         some (TreeKey.worktree repoName worktreeName))
      | none =>
        match s.desiredRepoSelection with
        | some repoName =>
          ({ s with desiredWorktreeSelection := none,
                    desiredRepoSelection := none },
           some (TreeKey.repo repoName))
        | none => ({ s with desiredWorktreeSelection := none }, prevKey)
    let s := rebuildTreeItems pick.1 pick.2
    match data.error with
    | some err => setError s err
    | none => s
  | .error err =>
    let s := { s with repos := [], repoWorktrees := [], repoDisplay := [],
                      treeItems := [], selected := none, expandedRepos := [] }
    setError s err

/-- The full `AllDataLoaded` arm of `App::handle_worker_events`: staleness
check, loading clears, result application, and the `needs_reload` re-issue. -/
def applyAllDataLoaded (s : AppState) (requestId : Nat)
    (result : Except String AllData) : AppState :=
  if s.pendingAllRequest ≠ some requestId then s
  else
    let s := { s with pendingAllRequest := none }
    let s := clearLoading (clearLoading s .repos) .worktrees
    let s := applyAllDataResult s result
    if s.needsReload then requestAllData { s with needsReload := false } true
    else s

/-- One iteration of the event-drain loop in `App::handle_worker_events`:
the reaction to a single `WorkerEvent`.  (`UpdateCheckResult` only writes
through the config collaborator, so it leaves the application state alone.) -/
def handleWorkerEvent (s : AppState) : WorkerEvent → AppState
  | .allDataLoaded requestId result => applyAllDataLoaded s requestId result
  | .updateCheckResult _ => s
  | .upgradeResult result =>
    let s :=
      match s.updatePrompt with
      | some prompt =>
        let prompt := { prompt with running := false }
        let prompt :=
          match result with
          | .ok _ => { prompt with completed := true }
          | .error _ => prompt
        { s with updatePrompt := some prompt }
      | none => s
    match result with
    | .ok _ => setStatus s "Upgrade complete. Press Enter to quit and relaunch."
    | .error err => setError s ("Upgrade failed: " ++ err)
  | .fsChanged =>
    if s.pendingAllRequest.isSome then { s with needsReload := true }
    else requestAllData s true
  | .envInfoLoaded homeDir gitVersion ghVersion =>
    let s := clearLoading s .envInfo
    { s with envInfo := { homeDir := homeDir, gitVersion := gitVersion,
                          ghVersion := ghVersion } }
  | .checkoutRepoResult result =>
    match result with
    | .ok repo =>
      let s := clearLoading s .action
      let label := displayRepoName s repo.name
      let s := setStatus s ("Checked out " ++ label)
      let s := { s with desiredRepoSelection := some repo.name }
      requestAllData s false
    | .error err => setError (clearLoading s .action) err
  | .worktreeScriptStarted kind path =>
    setLoading s .action ("Running " ++ kind ++ " script " ++ path) .action
  | .createWorktreeResult repoName result =>
    match result with
    | .ok worktree =>
      let worktreeName := worktree.displayName
      let selectionKey := worktree.branch.getD worktreeName
      let s := clearLoading s .action
      let label := formatWorktreeLabel s repoName worktreeName
      let s := setStatus s ("Created worktree " ++ label)
      let s := { s with desiredWorktreeSelection := some (repoName, selectionKey) }
      requestAllData s false
    | .error err => setError (clearLoading s .action) err
  | .deleteRepoResult name result =>
    match result with
    | .ok _ =>
      let s := clearLoading s .action
      let label := displayRepoName s name
      let s := setStatus s ("Deleted repo " ++ label)
      requestAllData s false
    | .error err => setError (clearLoading s .action) err
  | .deleteWorktreeResult repoName worktreeName result =>
    match result with
    | .ok _ =>
      let s := clearLoading s .action
      let label := formatWorktreeLabel s repoName worktreeName
      let s := setStatus s ("Deleted worktree " ++ label)
      requestAllData s false
    | .error err => setError (clearLoading s .action) err

/-- Draining a list of pending worker events in arrival order
(the `while let Ok(event) = try_recv()` loop). -/
def processEvents (s : AppState) (events : List WorkerEvent) : AppState :=
  events.foldl handleWorkerEvent s

/-- Mirrors `App::submit_input` (called on Enter after the input state has
been taken out of `self.input`).  The returned `Option Focus` is the
`next_focus` the caller falls back from. -/
def submitInput (env : Env) (s : AppState) (input : InputState) :
    AppState × Option Focus :=
  match input.kind with
  | .checkoutRepo =>
    let url := rustTrim input.buffer
    if url = "" then (setError s "Git url required", none)
    else
      let s := setLoading s .action "Cloning repo" .action
      (sendRequest s (.checkoutRepo url), none)
  | .createWorktreeName repo =>
    let name := rustTrim input.buffer
    match validateWorktreeName name with
    | .error message =>
      let s := setError s message
      ({ s with input := some { kind := .createWorktreeName repo,
                                buffer := input.buffer,
                                origin := input.origin } },
       some .input)
    | .ok _ =>
      let defaultSource := defaultSourceBranch env repo
      ({ s with input := some { kind := .createWorktreeSource repo name,
                                buffer := defaultSource,
                                origin := input.origin } },
       some .input)
  | .createWorktreeSource repo name =>
    let sourceBranch := rustTrim input.buffer
    match validateBranchName sourceBranch with
    | .error message =>
      let s := setError s message
      ({ s with input := some { kind := .createWorktreeSource repo name,
                                buffer := input.buffer,
                                origin := input.origin } },
       some .input)
    | .ok _ =>
      let defaultBr := env.defaultBranchName name
      let defaultSource := defaultSourceBranch env repo
      let defaultBr := if sourceBranch = defaultSource then defaultBr else sourceBranch
      ({ s with input := some { kind := .createWorktreeBranch repo name sourceBranch,
                                buffer := defaultBr,
                                origin := input.origin } },
       some .input)
  | .createWorktreeBranch repo name sourceBranch =>
    let branch := rustTrim input.buffer
    match validateBranchName branch with
    | .error message =>
      let s := setError s message
      ({ s with input := some { kind := .createWorktreeBranch repo name sourceBranch,
                                buffer := input.buffer,
                                origin := input.origin } },
       some .input)
    | .ok _ =>
      let label := formatWorktreeLabel s repo.name name
      let s := setLoading s .action ("Creating worktree " ++ label) .action
      (sendRequest s (.createWorktree repo name branch sourceBranch), none)
  | .deleteRepo name =>
    if !deleteConfirmed input.buffer then (setStatus s "Delete canceled", none)
    else
      let label := displayRepoName s name
      let s := setLoading s .action ("Deleting repo " ++ label) .action
      (sendRequest s (.deleteRepo name), none)
  | .deleteWorktree repo name =>
    if !deleteConfirmed input.buffer then (setStatus s "Delete canceled", none)
    else
      let changeCount := (worktreeChangeCount s repo name).getD 0
      if changeCount > 0 then
        let label := formatWorktreeLabel s repo.name name
        let fileLabel :=
          if changeCount = 1 then "1 changed file"
          else toString changeCount ++ " changed files"
        let s := setError s (label ++ " has " ++ fileLabel ++
          ". Type \x27discard\x27 to delete and lose those changes.")
        ({ s with input := some { kind := .deleteWorktreeForce repo name,
                                  buffer := "",
                                  origin := input.origin } },
         some .input)
      else
        let label := formatWorktreeLabel s repo.name name
        let s := setLoading s .action ("Deleting worktree " ++ label) .action
        (sendRequest s (.deleteWorktree repo name false), none)
  | .deleteWorktreeForce repo name =>
    if !discardConfirmed input.buffer then (setStatus s "Delete canceled", none)
    else
      let label := formatWorktreeLabel s repo.name name
      let s := setLoading s .action ("Deleting worktree " ++ label) .action
      (sendRequest s (.deleteWorktree repo name true), none)

/-- Number of `LoadAll` requests in a request log. -/
def countLoadAll (l : List WorkerRequest) : Nat :=
  l.countP (fun r => match r with | .loadAll _ => true | _ => false)

/-- The selection invariant of the spec: the selected index is `none` exactly
when the flattened tree is empty, and otherwise lies strictly below the
tree's length. -/
def selInv (s : AppState) : Prop :=
  (s.selected = none ↔ s.treeItems = []) ∧
    ∀ i, s.selected = some i → i < s.treeItems.length

/-- A fresh application state (the field values of `App::new` before any
worker traffic), usable as a concrete evaluation point. -/
def emptyApp : AppState :=
  { repos := [], treeItems := [], selected := none, repoWorktrees := [],
    repoDisplay := [], expandedRepos := [], focus := .list, input := none,
    status := none, loading := [], envInfo := {}, requestSeq := 0,
    pendingAllRequest := none, needsReload := false,
    desiredRepoSelection := none, desiredWorktreeSelection := none,
    updatePrompt := none, sent := [] }

/-- A concrete repo for evaluation points. -/
def sampleRepo : Repo := { name := "alpha", path := "/repos/alpha" }

/-- A concrete worktree for evaluation points. -/
def sampleWorktree : Worktree :=
  { path := "/wt/feature", branch := some "feature", head := none }

/-- A concrete worktree entry with one changed file. -/
def sampleEntry : WorktreeEntry :=
  { worktree := sampleWorktree, headAuthor := none, headMessage := none,
    upstream := none, syncStatus := "clean", worktreePath := "/wt/feature",
    changedFiles := [{ path := "a.txt", added := 1, removed := 0 }] }

/-- A concrete collaborator environment for evaluation points. -/
def sampleEnv : Env :=
  { defaultBranch := fun _ => .ok none, defaultBranchName := fun n => n }

/-- A concrete successful load result for evaluation points. -/
def sampleData : AllData :=
  { repos := [sampleRepo], repoWorktrees := [], repoDisplay := [], error := none }

/-- A populated application state: one repo, expanded, with one worktree. -/
def sampleApp : AppState :=
  let base :=
    { emptyApp with
        repos := [sampleRepo],
        repoWorktrees := [(sampleRepo.name, [sampleEntry])],
        expandedRepos := [sampleRepo.name],
        requestSeq := 2,
        pendingAllRequest := some 1 }
  rebuildTreeItems base none

/-! ## Helper lemmas -/

theorem asciiLower_eq_empty (s : String) : asciiLower s = "" ↔ s = "" := by
  cases s with
  | mk data => simp [asciiLower, String.ext_iff]

theorem setStatusTone_treeItems (s : AppState) (m : String) (t : StatusTone) :
    (setStatusTone s m t).treeItems = s.treeItems := by
  unfold setStatusTone; split <;> rfl

theorem setStatusTone_selected (s : AppState) (m : String) (t : StatusTone) :
    (setStatusTone s m t).selected = s.selected := by
  unfold setStatusTone; split <;> rfl

theorem setStatusTone_repos (s : AppState) (m : String) (t : StatusTone) :
    (setStatusTone s m t).repos = s.repos := by
  unfold setStatusTone; split <;> rfl

theorem setStatusTone_repoWorktrees (s : AppState) (m : String) (t : StatusTone) :
    (setStatusTone s m t).repoWorktrees = s.repoWorktrees := by
  unfold setStatusTone; split <;> rfl

theorem setStatusTone_repoDisplay (s : AppState) (m : String) (t : StatusTone) :
    (setStatusTone s m t).repoDisplay = s.repoDisplay := by
  unfold setStatusTone; split <;> rfl

theorem setStatusTone_expandedRepos (s : AppState) (m : String) (t : StatusTone) :
    (setStatusTone s m t).expandedRepos = s.expandedRepos := by
  unfold setStatusTone; split <;> rfl

theorem setStatusTone_sent (s : AppState) (m : String) (t : StatusTone) :
    (setStatusTone s m t).sent = s.sent := by
  unfold setStatusTone; split <;> rfl

theorem setStatusTone_pending (s : AppState) (m : String) (t : StatusTone) :
    (setStatusTone s m t).pendingAllRequest = s.pendingAllRequest := by
  unfold setStatusTone; split <;> rfl

theorem setStatusTone_needsReload (s : AppState) (m : String) (t : StatusTone) :
    (setStatusTone s m t).needsReload = s.needsReload := by
  unfold setStatusTone; split <;> rfl

theorem setStatusTone_input (s : AppState) (m : String) (t : StatusTone) :
    (setStatusTone s m t).input = s.input := by
  unfold setStatusTone; split <;> rfl

theorem setStatus_treeItems (s : AppState) (m : String) :
    (setStatus s m).treeItems = s.treeItems := setStatusTone_treeItems s m .success

theorem setStatus_selected (s : AppState) (m : String) :
    (setStatus s m).selected = s.selected := setStatusTone_selected s m .success

theorem setStatus_repos (s : AppState) (m : String) :
    (setStatus s m).repos = s.repos := setStatusTone_repos s m .success

theorem setStatus_sent (s : AppState) (m : String) :
    (setStatus s m).sent = s.sent := setStatusTone_sent s m .success

theorem setStatus_pending (s : AppState) (m : String) :
    (setStatus s m).pendingAllRequest = s.pendingAllRequest :=
  setStatusTone_pending s m .success

theorem setStatus_needsReload (s : AppState) (m : String) :
    (setStatus s m).needsReload = s.needsReload :=
  setStatusTone_needsReload s m .success

theorem setLoading_treeItems (s : AppState) (g : LoadingGroup) (m : String)
    (p : LoadingPriority) : (setLoading s g m p).treeItems = s.treeItems := by
  unfold setLoading clearLoading clearStatus; split <;> (try split) <;> rfl

theorem setLoading_selected (s : AppState) (g : LoadingGroup) (m : String)
    (p : LoadingPriority) : (setLoading s g m p).selected = s.selected := by
  unfold setLoading clearLoading clearStatus; split <;> (try split) <;> rfl

theorem setLoading_repos (s : AppState) (g : LoadingGroup) (m : String)
    (p : LoadingPriority) : (setLoading s g m p).repos = s.repos := by
  unfold setLoading clearLoading clearStatus; split <;> (try split) <;> rfl

theorem setLoading_repoWorktrees (s : AppState) (g : LoadingGroup) (m : String)
    (p : LoadingPriority) : (setLoading s g m p).repoWorktrees = s.repoWorktrees := by
  unfold setLoading clearLoading clearStatus; split <;> (try split) <;> rfl

theorem setLoading_repoDisplay (s : AppState) (g : LoadingGroup) (m : String)
    (p : LoadingPriority) : (setLoading s g m p).repoDisplay = s.repoDisplay := by
  unfold setLoading clearLoading clearStatus; split <;> (try split) <;> rfl

theorem setLoading_expandedRepos (s : AppState) (g : LoadingGroup) (m : String)
    (p : LoadingPriority) : (setLoading s g m p).expandedRepos = s.expandedRepos := by
  unfold setLoading clearLoading clearStatus; split <;> (try split) <;> rfl

theorem setLoading_sent (s : AppState) (g : LoadingGroup) (m : String)
    (p : LoadingPriority) : (setLoading s g m p).sent = s.sent := by
  unfold setLoading clearLoading clearStatus; split <;> (try split) <;> rfl

theorem setLoading_pending (s : AppState) (g : LoadingGroup) (m : String)
    (p : LoadingPriority) : (setLoading s g m p).pendingAllRequest = s.pendingAllRequest := by
  unfold setLoading clearLoading clearStatus; split <;> (try split) <;> rfl

theorem setLoading_needsReload (s : AppState) (g : LoadingGroup) (m : String)
    (p : LoadingPriority) : (setLoading s g m p).needsReload = s.needsReload := by
  unfold setLoading clearLoading clearStatus; split <;> (try split) <;> rfl

theorem setLoading_requestSeq (s : AppState) (g : LoadingGroup) (m : String)
    (p : LoadingPriority) : (setLoading s g m p).requestSeq = s.requestSeq := by
  unfold setLoading clearLoading clearStatus; split <;> (try split) <;> rfl

theorem setLoading_input (s : AppState) (g : LoadingGroup) (m : String)
    (p : LoadingPriority) : (setLoading s g m p).input = s.input := by
  unfold setLoading clearLoading clearStatus; split <;> (try split) <;> rfl

theorem setLoading_status_background (s : AppState) (g : LoadingGroup) (m : String) :
    (setLoading s g m .background).status = s.status := by
  unfold setLoading clearLoading; split <;> rfl

theorem requestAllData_treeItems (s : AppState) (b : Bool) :
    (requestAllData s b).treeItems = s.treeItems := by
  unfold requestAllData sendRequest nextRequestId
  split <;> simp [setLoading_treeItems]

theorem requestAllData_selected (s : AppState) (b : Bool) :
    (requestAllData s b).selected = s.selected := by
  unfold requestAllData sendRequest nextRequestId
  split <;> simp [setLoading_selected]

theorem requestAllData_repos (s : AppState) (b : Bool) :
    (requestAllData s b).repos = s.repos := by
  unfold requestAllData sendRequest nextRequestId
  split <;> simp [setLoading_repos]

theorem requestAllData_repoWorktrees (s : AppState) (b : Bool) :
    (requestAllData s b).repoWorktrees = s.repoWorktrees := by
  unfold requestAllData sendRequest nextRequestId
  split <;> simp [setLoading_repoWorktrees]

theorem requestAllData_repoDisplay (s : AppState) (b : Bool) :
    (requestAllData s b).repoDisplay = s.repoDisplay := by
  unfold requestAllData sendRequest nextRequestId
  split <;> simp [setLoading_repoDisplay]

theorem requestAllData_expandedRepos (s : AppState) (b : Bool) :
    (requestAllData s b).expandedRepos = s.expandedRepos := by
  unfold requestAllData sendRequest nextRequestId
  split <;> simp [setLoading_expandedRepos]

theorem requestAllData_status_silent (s : AppState) :
    (requestAllData s true).status = s.status := by
  unfold requestAllData sendRequest nextRequestId
  simp

theorem requestAllData_status (s : AppState) (b : Bool) :
    (requestAllData s b).status = s.status := by
  unfold requestAllData sendRequest nextRequestId
  split
  · simp
  · simp [setLoading_status_background]

theorem requestAllData_input (s : AppState) (b : Bool) :
    (requestAllData s b).input = s.input := by
  unfold requestAllData sendRequest nextRequestId
  split <;> simp [setLoading_input]

theorem requestAllData_pending (s : AppState) (b : Bool) :
    (requestAllData s b).pendingAllRequest = some ((s.requestSeq + 1) % u64Limit) := by
  unfold requestAllData sendRequest nextRequestId
  split <;> simp [setLoading_pending]

theorem requestAllData_needsReload (s : AppState) (b : Bool) :
    (requestAllData s b).needsReload = false := by
  unfold requestAllData sendRequest nextRequestId
  split <;> simp [setLoading_needsReload]

theorem requestAllData_requestSeq (s : AppState) (b : Bool) :
    (requestAllData s b).requestSeq = (s.requestSeq + 1) % u64Limit := by
  unfold requestAllData sendRequest nextRequestId
  split <;> simp [setLoading_requestSeq]

theorem requestAllData_sent (s : AppState) (b : Bool) :
    (requestAllData s b).sent = s.sent ++ [.loadAll ((s.requestSeq + 1) % u64Limit)] := by
  unfold requestAllData sendRequest nextRequestId
  split <;> simp [setLoading_sent]

theorem firstIdxWhere_lt_length {p : α → Bool} {l : List α} {i : Nat}
    (h : firstIdxWhere p l = some i) : i < l.length := by
  induction l generalizing i with
  | nil => simp [firstIdxWhere] at h
  | cons a l ih =>
    rw [firstIdxWhere] at h
    split at h
    · cases h; simp
    · rw [Option.map_eq_some'] at h
      obtain ⟨j, hj, rfl⟩ := h
      have := ih hj
      simp only [List.length_cons]
      omega

theorem firstIdxWhere_get {p : α → Bool} {l : List α} {i : Nat}
    (h : firstIdxWhere p l = some i) : ∃ a, l.get? i = some a ∧ p a = true := by
  induction l generalizing i with
  | nil => simp [firstIdxWhere] at h
  | cons a l ih =>
    rw [firstIdxWhere] at h
    split at h
    · cases h
      exact ⟨a, rfl, by assumption⟩
    · rw [Option.map_eq_some'] at h
      obtain ⟨j, hj, rfl⟩ := h
      simpa using ih hj

theorem firstIdxWhere_earlier {p : α → Bool} {l : List α} {i : Nat}
    (h : firstIdxWhere p l = some i) {j : Nat} (hj : j < i) :
    ∀ a, l.get? j = some a → p a = false := by
  induction l generalizing i j with
  | nil => simp [firstIdxWhere] at h
  | cons a l ih =>
    rw [firstIdxWhere] at h
    split at h
    · cases h; omega
    · rw [Option.map_eq_some'] at h
      obtain ⟨k, hk, rfl⟩ := h
      intro b hb
      cases j with
      | zero =>
        cases hb
        simp only [Bool.not_eq_true] at *
        assumption
      | succ j =>
        exact ih hk (by omega) b hb

theorem firstIdxWhere_of_any {p : α → Bool} {l : List α}
    (h : l.any p = true) : ∃ i, firstIdxWhere p l = some i := by
  induction l with
  | nil => simp at h
  | cons a l ih =>
    by_cases hp : p a = true
    · exact ⟨0, by rw [firstIdxWhere]; simp [hp]⟩
    · simp only [List.any_cons, Bool.or_eq_true] at h
      rcases h with h | h
      · exact absurd h hp
      · obtain ⟨i, hi⟩ := ih h
        exact ⟨i + 1, by rw [firstIdxWhere]; simp [hp, hi]⟩

theorem clampSelection_none_iff (sel : Option Nat) (len : Nat) :
    clampSelection sel len = none ↔ len = 0 := by
  unfold clampSelection
  split <;> simp_all

theorem clampSelection_lt (sel : Option Nat) (len : Nat) {i : Nat}
    (h : clampSelection sel len = some i) : i < len := by
  unfold clampSelection at h
  split at h
  · cases h
  · cases h
    omega

theorem selInv_rebuild (s : AppState) (pref : Option TreeKey) :
    selInv (rebuildTreeItems s pref) := by
  unfold rebuildTreeItems selectTreeKey
  cases pref with
  | none =>
    refine ⟨?_, ?_⟩
    · simp [clampSelection_none_iff, List.length_eq_zero]
    · intro i hi
      exact clampSelection_lt _ _ hi
  | some key =>
    rcases hm : firstIdxWhere (fun item => treeItemMatchesKey item key)
        (buildTreeItems s.repos s.repoWorktrees s.repoDisplay s.expandedRepos) with _ | idx
    · simp only [hm]
      refine ⟨?_, ?_⟩
      · simp [clampSelection_none_iff, List.length_eq_zero]
      · intro i hi
        exact clampSelection_lt _ _ hi
    · simp only [hm]
      have hlt := firstIdxWhere_lt_length hm
      refine ⟨⟨fun hx => Option.noConfusion hx, fun hx => ?_⟩, fun i hi => ?_⟩
      · rw [show buildTreeItems s.repos s.repoWorktrees s.repoDisplay s.expandedRepos = []
            from hx] at hlt
        simp at hlt
      · have hi' : idx = i := Option.some.inj hi
        subst hi'
        exact hlt

theorem selInv_moveSelection (s : AppState) (h : selInv s) (delta : Int) :
    selInv (moveSelection s delta) := by
  unfold moveSelection
  cases hf : s.focus
  · dsimp only
    unfold moveState
    by_cases hlen : s.treeItems.length = 0
    · rw [if_pos hlen]
      refine ⟨?_, fun i hi => Option.noConfusion hi⟩
      simp [List.length_eq_zero.mp hlen]
    · have hcur : s.selected.getD 0 < s.treeItems.length := by
        rcases hsel : s.selected with _ | i
        · simpa using Nat.pos_of_ne_zero hlen
        · simpa using h.2 i hsel
      rw [if_neg hlen]
      refine ⟨⟨fun hx => Option.noConfusion hx, fun hx => ?_⟩, fun i hi => ?_⟩
      · dsimp only at hx
        rw [hx] at hlen
        simp at hlen
      · have hi' := Option.some.inj hi
        subst hi'
        dsimp only
        split_ifs <;> omega
  · exact h

theorem rebuildTreeItems_treeItems (s : AppState) (pref : Option TreeKey) :
    (rebuildTreeItems s pref).treeItems =
      buildTreeItems s.repos s.repoWorktrees s.repoDisplay s.expandedRepos := by
  unfold rebuildTreeItems selectTreeKey
  cases pref with
  | none => rfl
  | some key => dsimp only; split <;> rfl

theorem rebuildTreeItems_repos (s : AppState) (pref : Option TreeKey) :
    (rebuildTreeItems s pref).repos = s.repos := by
  unfold rebuildTreeItems selectTreeKey
  cases pref with
  | none => rfl
  | some key => dsimp only; split <;> rfl

theorem rebuildTreeItems_repoWorktrees (s : AppState) (pref : Option TreeKey) :
    (rebuildTreeItems s pref).repoWorktrees = s.repoWorktrees := by
  unfold rebuildTreeItems selectTreeKey
  cases pref with
  | none => rfl
  | some key => dsimp only; split <;> rfl

theorem rebuildTreeItems_repoDisplay (s : AppState) (pref : Option TreeKey) :
    (rebuildTreeItems s pref).repoDisplay = s.repoDisplay := by
  unfold rebuildTreeItems selectTreeKey
  cases pref with
  | none => rfl
  | some key => dsimp only; split <;> rfl

theorem rebuildTreeItems_expandedRepos (s : AppState) (pref : Option TreeKey) :
    (rebuildTreeItems s pref).expandedRepos = s.expandedRepos := by
  unfold rebuildTreeItems selectTreeKey
  cases pref with
  | none => rfl
  | some key => dsimp only; split <;> rfl

theorem rebuildTreeItems_sent (s : AppState) (pref : Option TreeKey) :
    (rebuildTreeItems s pref).sent = s.sent := by
  unfold rebuildTreeItems selectTreeKey
  cases pref with
  | none => rfl
  | some key => dsimp only; split <;> rfl

theorem rebuildTreeItems_pending (s : AppState) (pref : Option TreeKey) :
    (rebuildTreeItems s pref).pendingAllRequest = s.pendingAllRequest := by
  unfold rebuildTreeItems selectTreeKey
  cases pref with
  | none => rfl
  | some key => dsimp only; split <;> rfl

theorem rebuildTreeItems_needsReload (s : AppState) (pref : Option TreeKey) :
    (rebuildTreeItems s pref).needsReload = s.needsReload := by
  unfold rebuildTreeItems selectTreeKey
  cases pref with
  | none => rfl
  | some key => dsimp only; split <;> rfl

theorem rebuildTreeItems_requestSeq (s : AppState) (pref : Option TreeKey) :
    (rebuildTreeItems s pref).requestSeq = s.requestSeq := by
  unfold rebuildTreeItems selectTreeKey
  cases pref with
  | none => rfl
  | some key => dsimp only; split <;> rfl

theorem rebuildTreeItems_status (s : AppState) (pref : Option TreeKey) :
    (rebuildTreeItems s pref).status = s.status := by
  unfold rebuildTreeItems selectTreeKey
  cases pref with
  | none => rfl
  | some key => dsimp only; split <;> rfl

theorem selInv_of_eq {a b : AppState} (h1 : a.treeItems = b.treeItems)
    (h2 : a.selected = b.selected) (h : selInv b) : selInv a := by
  unfold selInv
  rw [h1, h2]
  exact h

theorem selInv_applyAllDataResult (s : AppState) (res : Except String AllData) :
    selInv (applyAllDataResult s res) := by
  cases res with
  | ok data =>
    unfold applyAllDataResult
    dsimp only
    rcases data.error with _ | err
    · dsimp only
      exact selInv_rebuild _ _
    · dsimp only
      exact selInv_of_eq (setStatusTone_treeItems _ _ _) (setStatusTone_selected _ _ _)
        (selInv_rebuild _ _)
  | error err =>
    unfold applyAllDataResult
    refine selInv_of_eq (setStatusTone_treeItems _ _ _) (setStatusTone_selected _ _ _) ?_
    exact ⟨by simp, fun i hi => Option.noConfusion hi⟩

theorem selInv_handleWorkerEvent (s : AppState) (h : selInv s) (e : WorkerEvent) :
    selInv (handleWorkerEvent s e) := by
  cases e with
  | allDataLoaded rid res =>
    show selInv (applyAllDataLoaded s rid res)
    unfold applyAllDataLoaded
    split
    · exact h
    · dsimp only
      split
      · exact selInv_of_eq (requestAllData_treeItems _ _) (requestAllData_selected _ _)
          (selInv_applyAllDataResult _ _)
      · exact selInv_applyAllDataResult _ _
  | updateCheckResult latest => exact h
  | upgradeResult result =>
    show selInv _
    unfold handleWorkerEvent
    rcases result with _ | err <;> rcases s.updatePrompt with _ | prompt <;> dsimp only <;>
      exact selInv_of_eq (setStatusTone_treeItems _ _ _) (setStatusTone_selected _ _ _) h
  | fsChanged =>
    unfold handleWorkerEvent
    dsimp only
    split
    · exact h
    · exact selInv_of_eq (requestAllData_treeItems _ _) (requestAllData_selected _ _) h
  | envInfoLoaded a b c => exact h
  | checkoutRepoResult result =>
    unfold handleWorkerEvent
    rcases result with err | repo <;> dsimp only
    · exact selInv_of_eq (setStatusTone_treeItems _ _ _) (setStatusTone_selected _ _ _) h
    · refine selInv_of_eq ?_ ?_ h
      · rw [requestAllData_treeItems]
        dsimp only
        rw [setStatus_treeItems]
        rfl
      · rw [requestAllData_selected]
        dsimp only
        rw [setStatus_selected]
        rfl
  | worktreeScriptStarted kind path =>
    exact selInv_of_eq (setLoading_treeItems _ _ _ _) (setLoading_selected _ _ _ _) h
  | createWorktreeResult repoName result =>
    unfold handleWorkerEvent
    rcases result with err | wt <;> dsimp only
    · exact selInv_of_eq (setStatusTone_treeItems _ _ _) (setStatusTone_selected _ _ _) h
    · refine selInv_of_eq ?_ ?_ h
      · rw [requestAllData_treeItems]
        dsimp only
        rw [setStatus_treeItems]
        rfl
      · rw [requestAllData_selected]
        dsimp only
        rw [setStatus_selected]
        rfl
  | deleteRepoResult name result =>
    unfold handleWorkerEvent
    rcases result with err | u <;> dsimp only
    · exact selInv_of_eq (setStatusTone_treeItems _ _ _) (setStatusTone_selected _ _ _) h
    · refine selInv_of_eq ?_ ?_ h
      · rw [requestAllData_treeItems]
        rw [setStatus_treeItems]
        rfl
      · rw [requestAllData_selected]
        rw [setStatus_selected]
        rfl
  | deleteWorktreeResult repoName worktreeName result =>
    unfold handleWorkerEvent
    rcases result with err | u <;> dsimp only
    · exact selInv_of_eq (setStatusTone_treeItems _ _ _) (setStatusTone_selected _ _ _) h
    · refine selInv_of_eq ?_ ?_ h
      · rw [requestAllData_treeItems]
        rw [setStatus_treeItems]
        rfl
      · rw [requestAllData_selected]
        rw [setStatus_selected]
        rfl

/-! ## C4: the selection invariant -/

/-- C4: after any tree rebuild, any selection move, and the handling of any
worker event (from a state already satisfying the invariant), the selection
index is `none` exactly when the flattened tree-item list is empty, and
otherwise lies strictly below the list's length. -/
theorem selection_invariant (s : AppState) (h : selInv s) (pref : Option TreeKey)
    (delta : Int) (e : WorkerEvent) :
    selInv (rebuildTreeItems s pref) ∧ selInv (moveSelection s delta) ∧
      selInv (handleWorkerEvent s e) :=
  ⟨selInv_rebuild s pref, selInv_moveSelection s h delta,
    selInv_handleWorkerEvent s h e⟩

/-- C4 witness: the invariant holds of the fresh state and is kept by a
rebuild, a move, and a filesystem-change event handled from it. -/
theorem selection_invariant_witness :
    selInv emptyApp ∧
      (selInv (rebuildTreeItems emptyApp none) ∧ selInv (moveSelection emptyApp 1) ∧
        selInv (handleWorkerEvent emptyApp .fsChanged)) := by
  have h0 : selInv emptyApp := by
    refine ⟨by simp [emptyApp], fun i hi => ?_⟩
    simp [emptyApp] at hi
  exact ⟨h0, selection_invariant emptyApp h0 none 1 .fsChanged⟩

/-! ## C5: preferred-key reselection -/

/-- C5: when the tree is rebuilt with a preferred key and some item of the
rebuilt flattened list matches that key, the selection afterwards points at
the first such matching item, wherever it sits. -/
theorem rebuild_selects_preferred_key (s : AppState) (key : TreeKey)
    (h : (buildTreeItems s.repos s.repoWorktrees s.repoDisplay s.expandedRepos).any
      (fun item => treeItemMatchesKey item key) = true) :
    ∃ i item,
      (rebuildTreeItems s (some key)).selected = some i ∧
      (rebuildTreeItems s (some key)).treeItems.get? i = some item ∧
      treeItemMatchesKey item key = true ∧
      ∀ j item', j < i →
        (rebuildTreeItems s (some key)).treeItems.get? j = some item' →
        treeItemMatchesKey item' key = false := by
  obtain ⟨i, hi⟩ := firstIdxWhere_of_any h
  obtain ⟨item, hget, hmatch⟩ := firstIdxWhere_get hi
  refine ⟨i, item, ?_, ?_, hmatch, ?_⟩
  · unfold rebuildTreeItems selectTreeKey
    dsimp only
    rw [hi]
  · rw [rebuildTreeItems_treeItems]
    exact hget
  · intro j item' hj hget'
    rw [rebuildTreeItems_treeItems] at hget'
    exact firstIdxWhere_earlier hi hj item' hget'

/-- C5 witness: in the populated sample state the repo key "alpha" is present
after a rebuild, so the rebuild re-selects it. -/
theorem rebuild_selects_preferred_key_witness :
    ((buildTreeItems sampleApp.repos sampleApp.repoWorktrees sampleApp.repoDisplay
        sampleApp.expandedRepos).any
      (fun item => treeItemMatchesKey item (.repo "alpha")) = true) ∧
    ∃ i item,
      (rebuildTreeItems sampleApp (some (.repo "alpha"))).selected = some i ∧
      (rebuildTreeItems sampleApp (some (.repo "alpha"))).treeItems.get? i = some item ∧
      treeItemMatchesKey item (.repo "alpha") = true ∧
      ∀ j item', j < i →
        (rebuildTreeItems sampleApp (some (.repo "alpha"))).treeItems.get? j = some item' →
        treeItemMatchesKey item' (.repo "alpha") = false :=
  ⟨by decide, rebuild_selects_preferred_key sampleApp (.repo "alpha") (by decide)⟩

theorem buildTreeItems_foldl (wt : List (String × List WorktreeEntry))
    (disp : List (String × String)) (exp : List String) :
    ∀ (l : List Repo) (acc : List TreeItem),
      l.foldl
        (fun items repo =>
          let items := items ++ [repoTreeItem disp wt exp repo]
          if exp.contains repo.name then
            items ++ ((mapGet wt repo.name).getD []).map (worktreeTreeItem repo.name)
          else items) acc
      = acc ++ l.flatMap (fun repo =>
          repoTreeItem disp wt exp repo ::
            (if exp.contains repo.name then
              ((mapGet wt repo.name).getD []).map (worktreeTreeItem repo.name)
            else [])) := by
  intro l
  induction l with
  | nil => intro acc; simp
  | cons r l ih =>
    intro acc
    rw [List.foldl_cons]
    dsimp only
    by_cases hc : r.name ∈ exp
    · have hc' : exp.contains r.name = true := by simp [hc]
      rw [if_pos hc', ih]
      simp [hc, hc']
    · have hc' : exp.contains r.name = false := by simpa using hc
      rw [if_neg (by simpa using hc), ih]
      simp [hc, hc']

theorem filterMap_repoName_worktrees (rn : String) (entries : List WorktreeEntry) :
    (entries.map (worktreeTreeItem rn)).filterMap (fun item =>
      match item.kind with
      | .repo n _ _ => some n
      | .worktree _ _ => none) = [] := by
  induction entries with
  | nil => rfl
  | cons e l ih => simp [worktreeTreeItem, ih]

/-! ## C6: the shape of the flattened tree -/

/-- C6: the flattened tree consists, repo by repo in repo order, of exactly
one repo row followed by that repo's worktree rows exactly when the repo's
name is in the expanded set (one row per worktree entry); consequently the
repo rows, in order, are exactly the repos' names. -/
theorem tree_items_shape (repos : List Repo) (wt : List (String × List WorktreeEntry))
    (disp : List (String × String)) (exp : List String) :
    buildTreeItems repos wt disp exp
      = repos.flatMap (fun repo =>
          repoTreeItem disp wt exp repo ::
            (if exp.contains repo.name then
              ((mapGet wt repo.name).getD []).map (worktreeTreeItem repo.name)
            else []))
    ∧ (buildTreeItems repos wt disp exp).filterMap (fun item =>
        match item.kind with
        | .repo n _ _ => some n
        | .worktree _ _ => none) = repos.map Repo.name := by
  have h1 : buildTreeItems repos wt disp exp
      = repos.flatMap (fun repo =>
          repoTreeItem disp wt exp repo ::
            (if exp.contains repo.name then
              ((mapGet wt repo.name).getD []).map (worktreeTreeItem repo.name)
            else [])) := by
    unfold buildTreeItems
    simpa using buildTreeItems_foldl wt disp exp repos []
  refine ⟨h1, ?_⟩
  rw [h1]
  clear h1
  induction repos with
  | nil => rfl
  | cons r l ih =>
    rw [List.flatMap_cons, List.filterMap_append, ih]
    by_cases hc : r.name ∈ exp
    · simp [hc, repoTreeItem, worktreeTreeItem, filterMap_repoName_worktrees]
    · simp [hc, repoTreeItem]

theorem deleteConfirmed_iff (s : String) :
    deleteConfirmed s = true ↔
      (asciiLower (rustTrim s) ≠ "" ∧
        strStartsWith "yes" (asciiLower (rustTrim s)) = true) := by
  by_cases h : rustTrim s = "" <;> simp [deleteConfirmed, h, asciiLower_eq_empty]

theorem discardConfirmed_iff (s : String) :
    discardConfirmed s = true ↔
      (asciiLower (rustTrim s) ≠ "" ∧
        strStartsWith "discard" (asciiLower (rustTrim s)) = true) := by
  by_cases h : rustTrim s = "" <;> simp [discardConfirmed, h, asciiLower_eq_empty]

theorem validateWorktreeName_error_ne {x m : String}
    (h : validateWorktreeName x = .error m) : m ≠ "" := by
  unfold validateWorktreeName at h
  split_ifs at h <;> cases h <;> decide

theorem validateBranchName_error_ne {x m : String}
    (h : validateBranchName x = .error m) : m ≠ "" := by
  unfold validateBranchName at h
  split_ifs at h <;> cases h <;> decide

theorem worktreeChangeCount_input (s : AppState) (inp : Option InputState)
    (repo : Repo) (name : String) :
    worktreeChangeCount { s with input := inp } repo name =
      worktreeChangeCount s repo name := rfl

/-! ## C8: the confirmation parser -/

/-- C8: the confirmation parser accepts exactly the inputs whose trimmed,
ASCII-lowercased form is a non-empty prefix of the expected word ("yes" for
the delete gate, "discard" for the force gate); in particular "" cancels,
"y", "ye", "yes", "YES" confirm the "yes" gate, and "no", "x" cancel, with
the analogous table for the "discard" gate. -/
theorem confirmation_rule :
    (∀ s, deleteConfirmed s = true ↔
      (asciiLower (rustTrim s) ≠ "" ∧
        strStartsWith "yes" (asciiLower (rustTrim s)) = true))
    ∧ (∀ s, discardConfirmed s = true ↔
      (asciiLower (rustTrim s) ≠ "" ∧
        strStartsWith "discard" (asciiLower (rustTrim s)) = true))
    ∧ deleteConfirmed "" = false ∧ deleteConfirmed "y" = true
    ∧ deleteConfirmed "ye" = true ∧ deleteConfirmed "yes" = true
    ∧ deleteConfirmed "YES" = true ∧ deleteConfirmed "no" = false
    ∧ deleteConfirmed "x" = false
    ∧ discardConfirmed "" = false ∧ discardConfirmed "d" = true
    ∧ discardConfirmed "disc" = true ∧ discardConfirmed "discard" = true
    ∧ discardConfirmed "DISCARD" = true ∧ discardConfirmed "no" = false
    ∧ discardConfirmed "x" = false := by
  exact ⟨deleteConfirmed_iff, discardConfirmed_iff, by decide, by decide,
    by decide, by decide, by decide, by decide, by decide, by decide,
    by decide, by decide, by decide, by decide, by decide, by decide⟩

/-! ## C3: the discard gate for dirty worktrees -/

/-- C3: submitting the delete-worktree confirmation for a worktree whose
changed-files list is non-empty never sends any worker request at that step
(in particular no `DeleteWorktree` with `force := false`); when the deletion
was confirmed it opens the force-confirmation input instead, and the
force-confirmation step sends `DeleteWorktree` with `force := true` exactly
when the trimmed, ASCII-lowercased input is a non-empty prefix of
"discard". -/
theorem delete_worktree_discard_gate (env : Env) (s : AppState) (repo : Repo)
    (name buffer : String) (origin : Focus) (k : Nat)
    (hchg : worktreeChangeCount s repo name = some k) (hk : 0 < k) :
    (submitInput env { s with input := none }
        { kind := .deleteWorktree repo name, buffer := buffer, origin := origin }).1.sent
      = s.sent
    ∧ (deleteConfirmed buffer = true →
        (submitInput env { s with input := none }
            { kind := .deleteWorktree repo name, buffer := buffer, origin := origin }).1.input
          = some { kind := .deleteWorktreeForce repo name, buffer := "", origin := origin }
        ∧ (submitInput env { s with input := none }
            { kind := .deleteWorktree repo name, buffer := buffer, origin := origin }).2
          = some .input)
    ∧ (∀ buffer2,
        (submitInput env { s with input := none }
            { kind := .deleteWorktreeForce repo name, buffer := buffer2, origin := origin }).1.sent
          = s.sent ++ (if discardConfirmed buffer2 then
              [WorkerRequest.deleteWorktree repo name true] else [])
        ∧ (discardConfirmed buffer2 = true ↔
            (asciiLower (rustTrim buffer2) ≠ "" ∧
              strStartsWith "discard" (asciiLower (rustTrim buffer2)) = true))) := by
  have hcnt : worktreeChangeCount { s with input := none } repo name = some k := hchg
  refine ⟨?_, ?_, ?_⟩
  · unfold submitInput
    by_cases hdc : deleteConfirmed buffer
    · simp [hdc, hcnt, hk, setError, setStatusTone_sent]
    · simp [hdc, setStatus, setStatusTone_sent]
  · intro hdc
    unfold submitInput
    simp [hdc, hcnt, hk, setError, setStatusTone_input]
  · intro buffer2
    refine ⟨?_, discardConfirmed_iff buffer2⟩
    unfold submitInput
    by_cases hd2 : discardConfirmed buffer2
    · simp [hd2, sendRequest, setLoading_sent]
    · simp [hd2, setStatus, setStatusTone_sent]

/-- C3 witness: in the populated sample state the selected worktree has one
changed file, so a confirmed delete submission leaves the request log
untouched. -/
theorem delete_worktree_discard_gate_witness :
    (submitInput sampleEnv { sampleApp with input := none }
        { kind := .deleteWorktree sampleRepo "feature", buffer := "yes",
          origin := .list }).1.sent
      = sampleApp.sent :=
  (delete_worktree_discard_gate sampleEnv sampleApp sampleRepo "feature" "yes" .list 1
    (by decide) (by decide)).1

/-! ## C9: validation failures during input submission -/

/-- C9 (amended): a validation failure at any create-worktree wizard step
sends no worker request, shows the validator's error message with Error
tone, and re-opens the same input step with the typed buffer preserved; an
empty (after trimming) clone URL sends no request and shows an error
status, but closes the prompt rather than re-opening it. -/
theorem input_validation_failures (env : Env) (s : AppState) (repo : Repo)
    (name sourceBranch buffer msg : String) (origin : Focus) :
    (rustTrim buffer = "" →
      (submitInput env { s with input := none }
          { kind := .checkoutRepo, buffer := buffer, origin := origin }).1.sent = s.sent
      ∧ (submitInput env { s with input := none }
          { kind := .checkoutRepo, buffer := buffer, origin := origin }).1.status
        = some { text := "Git url required", tone := .error }
      ∧ (submitInput env { s with input := none }
          { kind := .checkoutRepo, buffer := buffer, origin := origin }).1.input = none)
    ∧ (validateWorktreeName (rustTrim buffer) = .error msg →
      (submitInput env { s with input := none }
          { kind := .createWorktreeName repo, buffer := buffer, origin := origin }).1.sent
        = s.sent
      ∧ (submitInput env { s with input := none }
          { kind := .createWorktreeName repo, buffer := buffer, origin := origin }).1.status
        = some { text := msg, tone := .error }
      ∧ (submitInput env { s with input := none }
          { kind := .createWorktreeName repo, buffer := buffer, origin := origin }).1.input
        = some { kind := .createWorktreeName repo, buffer := buffer, origin := origin }
      ∧ (submitInput env { s with input := none }
          { kind := .createWorktreeName repo, buffer := buffer, origin := origin }).2
        = some .input)
    ∧ (validateBranchName (rustTrim buffer) = .error msg →
      (submitInput env { s with input := none }
          { kind := .createWorktreeSource repo name, buffer := buffer, origin := origin }).1.sent
        = s.sent
      ∧ (submitInput env { s with input := none }
          { kind := .createWorktreeSource repo name, buffer := buffer, origin := origin }).1.status
        = some { text := msg, tone := .error }
      ∧ (submitInput env { s with input := none }
          { kind := .createWorktreeSource repo name, buffer := buffer, origin := origin }).1.input
        = some { kind := .createWorktreeSource repo name, buffer := buffer, origin := origin }
      ∧ (submitInput env { s with input := none }
          { kind := .createWorktreeSource repo name, buffer := buffer, origin := origin }).2
        = some .input)
    ∧ (validateBranchName (rustTrim buffer) = .error msg →
      (submitInput env { s with input := none }
          { kind := .createWorktreeBranch repo name sourceBranch, buffer := buffer,
            origin := origin }).1.sent = s.sent
      ∧ (submitInput env { s with input := none }
          { kind := .createWorktreeBranch repo name sourceBranch, buffer := buffer,
            origin := origin }).1.status
        = some { text := msg, tone := .error }
      ∧ (submitInput env { s with input := none }
          { kind := .createWorktreeBranch repo name sourceBranch, buffer := buffer,
            origin := origin }).1.input
        = some { kind := .createWorktreeBranch repo name sourceBranch, buffer := buffer,
                 origin := origin }
      ∧ (submitInput env { s with input := none }
          { kind := .createWorktreeBranch repo name sourceBranch, buffer := buffer,
            origin := origin }).2
        = some .input) := by
  refine ⟨?_, ?_, ?_, ?_⟩
  · intro hurl
    unfold submitInput
    simp [hurl, setError, setStatusTone]
  · intro hval
    have hne := validateWorktreeName_error_ne hval
    unfold submitInput
    simp [hval, setError, setStatusTone, hne]
  · intro hval
    have hne := validateBranchName_error_ne hval
    unfold submitInput
    simp [hval, setError, setStatusTone, hne]
  · intro hval
    have hne := validateBranchName_error_ne hval
    unfold submitInput
    simp [hval, setError, setStatusTone, hne]

/-- C9 counterexample to the claim as stated: a whitespace-only clone URL
fails validation with an error status and no request sent, but the input is
not re-opened (the prompt closes), contradicting "the same input step is
re-opened with the typed buffer preserved". -/
theorem input_validation_counterexample :
    (submitInput sampleEnv emptyApp
        { kind := .checkoutRepo, buffer := " ", origin := .list }).1.input = none
    ∧ (submitInput sampleEnv emptyApp
        { kind := .checkoutRepo, buffer := " ", origin := .list }).1.status
      = some { text := "Git url required", tone := .error }
    ∧ (submitInput sampleEnv emptyApp
        { kind := .checkoutRepo, buffer := " ", origin := .list }).1.sent = [] := by
  decide

/-- C9 witness: an invalid worktree name ("bad name") at the wizard's first
step re-opens the same step, keeps the buffer, sets the error status, and
sends nothing. -/
theorem input_validation_failures_witness :
    (submitInput sampleEnv { emptyApp with input := none }
        { kind := .createWorktreeName sampleRepo, buffer := "bad name",
          origin := .list }).1.sent = emptyApp.sent
    ∧ (submitInput sampleEnv { emptyApp with input := none }
        { kind := .createWorktreeName sampleRepo, buffer := "bad name",
          origin := .list }).1.status
      = some { text := "Worktree name cannot contain spaces", tone := .error }
    ∧ (submitInput sampleEnv { emptyApp with input := none }
        { kind := .createWorktreeName sampleRepo, buffer := "bad name",
          origin := .list }).1.input
      = some { kind := .createWorktreeName sampleRepo, buffer := "bad name",
               origin := .list }
    ∧ (submitInput sampleEnv { emptyApp with input := none }
        { kind := .createWorktreeName sampleRepo, buffer := "bad name",
          origin := .list }).2
      = some .input :=
  (input_validation_failures sampleEnv emptyApp sampleRepo "x" "y" "bad name"
    "Worktree name cannot contain spaces" .list).2.1 (by decide)

theorem applyAllDataResult_sent (s : AppState) (res : Except String AllData) :
    (applyAllDataResult s res).sent = s.sent := by
  cases res with
  | error err =>
    unfold applyAllDataResult setError
    rw [setStatusTone_sent]
  | ok data =>
    unfold applyAllDataResult
    dsimp only
    rcases hde : data.error with _ | err <;> simp only [hde]
    · rw [rebuildTreeItems_sent]
      rcases hdw : s.desiredWorktreeSelection with _ | ⟨rn, wn⟩ <;>
        rcases hdr : s.desiredRepoSelection with _ | rn <;>
          simp only [hdw, hdr]
    · unfold setError
      rw [setStatusTone_sent, rebuildTreeItems_sent]
      rcases hdw : s.desiredWorktreeSelection with _ | ⟨rn, wn⟩ <;>
        rcases hdr : s.desiredRepoSelection with _ | rn <;>
          simp only [hdw, hdr]

theorem applyAllDataResult_needsReload (s : AppState) (res : Except String AllData) :
    (applyAllDataResult s res).needsReload = s.needsReload := by
  cases res with
  | error err =>
    unfold applyAllDataResult setError
    rw [setStatusTone_needsReload]
  | ok data =>
    unfold applyAllDataResult
    dsimp only
    rcases hde : data.error with _ | err <;> simp only [hde]
    · rw [rebuildTreeItems_needsReload]
      rcases hdw : s.desiredWorktreeSelection with _ | ⟨rn, wn⟩ <;>
        rcases hdr : s.desiredRepoSelection with _ | rn <;>
          simp only [hdw, hdr]
    · unfold setError
      rw [setStatusTone_needsReload, rebuildTreeItems_needsReload]
      rcases hdw : s.desiredWorktreeSelection with _ | ⟨rn, wn⟩ <;>
        rcases hdr : s.desiredRepoSelection with _ | rn <;>
          simp only [hdw, hdr]

theorem applyAllDataResult_pending (s : AppState) (res : Except String AllData) :
    (applyAllDataResult s res).pendingAllRequest = s.pendingAllRequest := by
  cases res with
  | error err =>
    unfold applyAllDataResult setError
    rw [setStatusTone_pending]
  | ok data =>
    unfold applyAllDataResult
    dsimp only
    rcases hde : data.error with _ | err <;> simp only [hde]
    · rw [rebuildTreeItems_pending]
      rcases hdw : s.desiredWorktreeSelection with _ | ⟨rn, wn⟩ <;>
        rcases hdr : s.desiredRepoSelection with _ | rn <;>
          simp only [hdw, hdr]
    · unfold setError
      rw [setStatusTone_pending, rebuildTreeItems_pending]
      rcases hdw : s.desiredWorktreeSelection with _ | ⟨rn, wn⟩ <;>
        rcases hdr : s.desiredRepoSelection with _ | rn <;>
          simp only [hdw, hdr]

theorem applyAllDataResult_ok_repos (s : AppState) (data : AllData) :
    (applyAllDataResult s (.ok data)).repos = data.repos := by
  unfold applyAllDataResult
  dsimp only
  rcases hde : data.error with _ | err <;> simp only [hde]
  · rw [rebuildTreeItems_repos]
    rcases hdw : s.desiredWorktreeSelection with _ | ⟨rn, wn⟩ <;>
      rcases hdr : s.desiredRepoSelection with _ | rn <;>
        simp only [hdw, hdr]
  · unfold setError
    rw [setStatusTone_repos, rebuildTreeItems_repos]
    rcases hdw : s.desiredWorktreeSelection with _ | ⟨rn, wn⟩ <;>
      rcases hdr : s.desiredRepoSelection with _ | rn <;>
        simp only [hdw, hdr]

theorem applyAllDataResult_ok_repoWorktrees (s : AppState) (data : AllData) :
    (applyAllDataResult s (.ok data)).repoWorktrees = data.repoWorktrees := by
  unfold applyAllDataResult
  dsimp only
  rcases hde : data.error with _ | err <;> simp only [hde]
  · rw [rebuildTreeItems_repoWorktrees]
    rcases hdw : s.desiredWorktreeSelection with _ | ⟨rn, wn⟩ <;>
      rcases hdr : s.desiredRepoSelection with _ | rn <;>
        simp only [hdw, hdr]
  · unfold setError
    rw [setStatusTone_repoWorktrees, rebuildTreeItems_repoWorktrees]
    rcases hdw : s.desiredWorktreeSelection with _ | ⟨rn, wn⟩ <;>
      rcases hdr : s.desiredRepoSelection with _ | rn <;>
        simp only [hdw, hdr]

theorem applyAllDataResult_ok_repoDisplay (s : AppState) (data : AllData) :
    (applyAllDataResult s (.ok data)).repoDisplay = data.repoDisplay := by
  unfold applyAllDataResult
  dsimp only
  rcases hde : data.error with _ | err <;> simp only [hde]
  · rw [rebuildTreeItems_repoDisplay]
    rcases hdw : s.desiredWorktreeSelection with _ | ⟨rn, wn⟩ <;>
      rcases hdr : s.desiredRepoSelection with _ | rn <;>
        simp only [hdw, hdr]
  · unfold setError
    rw [setStatusTone_repoDisplay, rebuildTreeItems_repoDisplay]
    rcases hdw : s.desiredWorktreeSelection with _ | ⟨rn, wn⟩ <;>
      rcases hdr : s.desiredRepoSelection with _ | rn <;>
        simp only [hdw, hdr]

theorem applyAllDataResult_ok_expanded (s : AppState) (data : AllData) :
    (applyAllDataResult s (.ok data)).expandedRepos =
      (match s.desiredWorktreeSelection with
       | some (rn, _) =>
         insertSet (s.expandedRepos.filter
           (fun name => data.repos.any (fun repo => repo.name == name))) rn
       | none =>
         s.expandedRepos.filter
           (fun name => data.repos.any (fun repo => repo.name == name))) := by
  unfold applyAllDataResult
  dsimp only
  rcases hde : data.error with _ | err <;> simp only [hde]
  · rw [rebuildTreeItems_expandedRepos]
    rcases hdw : s.desiredWorktreeSelection with _ | ⟨rn, wn⟩ <;>
      rcases hdr : s.desiredRepoSelection with _ | rn <;>
        simp only [hdw, hdr]
  · unfold setError
    rw [setStatusTone_expandedRepos, rebuildTreeItems_expandedRepos]
    rcases hdw : s.desiredWorktreeSelection with _ | ⟨rn, wn⟩ <;>
      rcases hdr : s.desiredRepoSelection with _ | rn <;>
        simp only [hdw, hdr]

theorem applyAllDataLoaded_stale (s : AppState) (rid : Nat)
    (res : Except String AllData) (h : s.pendingAllRequest ≠ some rid) :
    applyAllDataLoaded s rid res = s := by
  unfold applyAllDataLoaded
  rw [if_pos h]

theorem applyAllDataLoaded_match (s : AppState) (rid : Nat)
    (res : Except String AllData) (h : s.pendingAllRequest = some rid) :
    applyAllDataLoaded s rid res =
      (let s2 := applyAllDataResult
        (clearLoading (clearLoading { s with pendingAllRequest := none } .repos)
          .worktrees) res
       if s2.needsReload then requestAllData { s2 with needsReload := false } true
       else s2) := by
  unfold applyAllDataLoaded
  rw [if_neg (by simp [h])]

theorem countLoadAll_append (l1 l2 : List WorkerRequest) :
    countLoadAll (l1 ++ l2) = countLoadAll l1 + countLoadAll l2 :=
  List.countP_append _ _ _

theorem applyAllDataLoaded_sent_le (s : AppState) (rid : Nat)
    (res : Except String AllData) :
    countLoadAll (applyAllDataLoaded s rid res).sent ≤ countLoadAll s.sent + 1 := by
  by_cases h : s.pendingAllRequest = some rid
  · rw [applyAllDataLoaded_match s rid res h]
    dsimp only
    have hs : (applyAllDataResult
        (clearLoading (clearLoading { s with pendingAllRequest := none } .repos)
          .worktrees) res).sent = s.sent := by
      rw [applyAllDataResult_sent]
      rfl
    split
    · rw [requestAllData_sent, countLoadAll_append]
      dsimp only
      rw [hs]
      simp [countLoadAll]
    · rw [hs]
      omega
  · rw [applyAllDataLoaded_stale s rid res h]
    omega

theorem handleWorkerEvent_fsChanged_pending (s : AppState)
    (h : s.pendingAllRequest.isSome = true) :
    handleWorkerEvent s .fsChanged = { s with needsReload := true } := by
  unfold handleWorkerEvent
  rw [if_pos h]

theorem processEvents_fsChanged_replicate (n : Nat) :
    ∀ (s : AppState), s.pendingAllRequest.isSome = true →
      processEvents s (List.replicate n .fsChanged) =
        if n = 0 then s else { s with needsReload := true } := by
  induction n with
  | zero => intro s _; simp [processEvents]
  | succ n ih =>
    intro s h
    rw [List.replicate_succ]
    unfold processEvents
    rw [List.foldl_cons, handleWorkerEvent_fsChanged_pending s h]
    have := ih { s with needsReload := true } h
    unfold processEvents at this
    rw [this]
    cases n <;> simp

theorem processEvents_append (s : AppState) (l1 l2 : List WorkerEvent) :
    processEvents s (l1 ++ l2) = processEvents (processEvents s l1) l2 := by
  unfold processEvents
  rw [List.foldl_append]

theorem mem_insertSet {l : List String} {x y : String} (h : y ∈ insertSet l x) :
    y ∈ l ∨ y = x := by
  unfold insertSet at h
  split at h
  · exact .inl h
  · rcases List.mem_append.mp h with h1 | h1
    · exact .inl h1
    · exact .inr (List.mem_singleton.mp h1)

/-! ## C7: collaborator failures -/

/-- C7 (amended): a checkout, create-worktree, delete-repo or delete-worktree
failure event leaves the whole view (repos, worktree map, tree items,
expanded set, selection) unchanged, sends nothing, and sets an Error-tone
status carrying the message (an empty message clears the status instead);
a full-load (`AllDataLoaded`) failure whose id matches the pending request
instead clears the entire view and selection and sets the same error
status. -/
theorem operation_error_handling (s : AppState)
    (err repoName worktreeName name : String) (rid : Nat) :
    ((handleWorkerEvent s (.checkoutRepoResult (.error err))).repos = s.repos
      ∧ (handleWorkerEvent s (.checkoutRepoResult (.error err))).repoWorktrees
        = s.repoWorktrees
      ∧ (handleWorkerEvent s (.checkoutRepoResult (.error err))).treeItems = s.treeItems
      ∧ (handleWorkerEvent s (.checkoutRepoResult (.error err))).expandedRepos
        = s.expandedRepos
      ∧ (handleWorkerEvent s (.checkoutRepoResult (.error err))).selected = s.selected
      ∧ (handleWorkerEvent s (.checkoutRepoResult (.error err))).sent = s.sent
      ∧ (handleWorkerEvent s (.checkoutRepoResult (.error err))).status
        = (if err = "" then none else some { text := err, tone := .error }))
    ∧ ((handleWorkerEvent s (.createWorktreeResult repoName (.error err))).repos = s.repos
      ∧ (handleWorkerEvent s (.createWorktreeResult repoName (.error err))).repoWorktrees
        = s.repoWorktrees
      ∧ (handleWorkerEvent s (.createWorktreeResult repoName (.error err))).treeItems
        = s.treeItems
      ∧ (handleWorkerEvent s (.createWorktreeResult repoName (.error err))).expandedRepos
        = s.expandedRepos
      ∧ (handleWorkerEvent s (.createWorktreeResult repoName (.error err))).selected
        = s.selected
      ∧ (handleWorkerEvent s (.createWorktreeResult repoName (.error err))).sent = s.sent
      ∧ (handleWorkerEvent s (.createWorktreeResult repoName (.error err))).status
        = (if err = "" then none else some { text := err, tone := .error }))
    ∧ ((handleWorkerEvent s (.deleteRepoResult name (.error err))).repos = s.repos
      ∧ (handleWorkerEvent s (.deleteRepoResult name (.error err))).repoWorktrees
        = s.repoWorktrees
      ∧ (handleWorkerEvent s (.deleteRepoResult name (.error err))).treeItems = s.treeItems
      ∧ (handleWorkerEvent s (.deleteRepoResult name (.error err))).expandedRepos
        = s.expandedRepos
      ∧ (handleWorkerEvent s (.deleteRepoResult name (.error err))).selected = s.selected
      ∧ (handleWorkerEvent s (.deleteRepoResult name (.error err))).sent = s.sent
      ∧ (handleWorkerEvent s (.deleteRepoResult name (.error err))).status
        = (if err = "" then none else some { text := err, tone := .error }))
    ∧ ((handleWorkerEvent s
          (.deleteWorktreeResult repoName worktreeName (.error err))).repos = s.repos
      ∧ (handleWorkerEvent s
          (.deleteWorktreeResult repoName worktreeName (.error err))).repoWorktrees
        = s.repoWorktrees
      ∧ (handleWorkerEvent s
          (.deleteWorktreeResult repoName worktreeName (.error err))).treeItems
        = s.treeItems
      ∧ (handleWorkerEvent s
          (.deleteWorktreeResult repoName worktreeName (.error err))).expandedRepos
        = s.expandedRepos
      ∧ (handleWorkerEvent s
          (.deleteWorktreeResult repoName worktreeName (.error err))).selected
        = s.selected
      ∧ (handleWorkerEvent s
          (.deleteWorktreeResult repoName worktreeName (.error err))).sent = s.sent
      ∧ (handleWorkerEvent s
          (.deleteWorktreeResult repoName worktreeName (.error err))).status
        = (if err = "" then none else some { text := err, tone := .error }))
    ∧ (s.pendingAllRequest = some rid →
      (handleWorkerEvent s (.allDataLoaded rid (.error err))).repos = []
      ∧ (handleWorkerEvent s (.allDataLoaded rid (.error err))).repoWorktrees = []
      ∧ (handleWorkerEvent s (.allDataLoaded rid (.error err))).repoDisplay = []
      ∧ (handleWorkerEvent s (.allDataLoaded rid (.error err))).treeItems = []
      ∧ (handleWorkerEvent s (.allDataLoaded rid (.error err))).selected = none
      ∧ (handleWorkerEvent s (.allDataLoaded rid (.error err))).expandedRepos = []
      ∧ (handleWorkerEvent s (.allDataLoaded rid (.error err))).status
        = (if err = "" then none else some { text := err, tone := .error })) := by
  refine ⟨?_, ?_, ?_, ?_, ?_⟩
  · unfold handleWorkerEvent
    by_cases he : err = "" <;> simp [he, setError, setStatusTone, clearLoading]
  · unfold handleWorkerEvent
    by_cases he : err = "" <;> simp [he, setError, setStatusTone, clearLoading]
  · unfold handleWorkerEvent
    by_cases he : err = "" <;> simp [he, setError, setStatusTone, clearLoading]
  · unfold handleWorkerEvent
    by_cases he : err = "" <;> simp [he, setError, setStatusTone, clearLoading]
  · intro h
    rw [show handleWorkerEvent s (.allDataLoaded rid (.error err))
          = applyAllDataLoaded s rid (.error err) from rfl,
        applyAllDataLoaded_match s rid _ h]
    dsimp only
    split <;>
      by_cases he : err = "" <;>
        simp [he, applyAllDataResult, setError, setStatusTone, clearLoading,
          requestAllData_repos, requestAllData_repoWorktrees, requestAllData_repoDisplay,
          requestAllData_treeItems, requestAllData_selected, requestAllData_expandedRepos,
          requestAllData_status]

/-- C7 counterexample to the claim as stated: a matching full-load failure
(one of the listed collaborator-failure events) does not leave the view
intact — it wipes the repos list (and sets the error status). -/
theorem operation_error_view_counterexample :
    (handleWorkerEvent sampleApp (.allDataLoaded 1 (.error "scan failed"))).repos
      ≠ sampleApp.repos
    ∧ (handleWorkerEvent sampleApp (.allDataLoaded 1 (.error "scan failed"))).status
      = some { text := "scan failed", tone := .error } := by
  decide

/-- C7 witness: in the populated sample state a matching full-load failure
empties the repos list. -/
theorem operation_error_handling_witness :
    (handleWorkerEvent sampleApp (.allDataLoaded 1 (.error "boom"))).repos = [] :=
  ((operation_error_handling sampleApp "boom" "r" "w" "n" 1).2.2.2.2 (by decide)).1

/-! ## C1: stale full-load results are discarded -/

/-- C1: after two LoadAll requests with ids 3 and 4 (4 issued after 3),
handling the two `AllDataLoaded` events in either arrival order yields the
same state, with id-4's data applied; handling id-3's event once id-4's has
been applied changes nothing. -/
theorem stale_load_discarded (s : AppState) (h : s.requestSeq = 2) (b1 b2 : Bool)
    (r3 : Except String AllData) (d4 : AllData) :
    processEvents (requestAllData (requestAllData s b1) b2)
        [.allDataLoaded 3 r3, .allDataLoaded 4 (.ok d4)]
      = processEvents (requestAllData (requestAllData s b1) b2)
        [.allDataLoaded 4 (.ok d4), .allDataLoaded 3 r3]
    ∧ (processEvents (requestAllData (requestAllData s b1) b2)
        [.allDataLoaded 3 r3, .allDataLoaded 4 (.ok d4)]).repos = d4.repos
    ∧ (processEvents (requestAllData (requestAllData s b1) b2)
        [.allDataLoaded 3 r3, .allDataLoaded 4 (.ok d4)]).repoWorktrees
      = d4.repoWorktrees
    ∧ (processEvents (requestAllData (requestAllData s b1) b2)
        [.allDataLoaded 3 r3, .allDataLoaded 4 (.ok d4)]).repoDisplay = d4.repoDisplay
    ∧ handleWorkerEvent (processEvents (requestAllData (requestAllData s b1) b2)
        [.allDataLoaded 3 r3, .allDataLoaded 4 (.ok d4)]) (.allDataLoaded 3 r3)
      = processEvents (requestAllData (requestAllData s b1) b2)
        [.allDataLoaded 3 r3, .allDataLoaded 4 (.ok d4)] := by
  have e1 : (2 + 1) % u64Limit = 3 := by decide
  have e2 : (3 + 1) % u64Limit = 4 := by decide
  have hseq1 : (requestAllData s b1).requestSeq = 3 := by
    rw [requestAllData_requestSeq, h, e1]
  have hp1 : (requestAllData (requestAllData s b1) b2).pendingAllRequest = some 4 := by
    rw [requestAllData_pending, hseq1, e2]
  have hnr1 : (requestAllData (requestAllData s b1) b2).needsReload = false :=
    requestAllData_needsReload _ _
  set s1 := requestAllData (requestAllData s b1) b2 with hs1
  have hstale1 : handleWorkerEvent s1 (.allDataLoaded 3 r3) = s1 := by
    show applyAllDataLoaded s1 3 r3 = s1
    exact applyAllDataLoaded_stale _ _ _ (by rw [hp1]; simp)
  have hmid : handleWorkerEvent s1 (.allDataLoaded 4 (.ok d4))
      = applyAllDataResult
          (clearLoading (clearLoading { s1 with pendingAllRequest := none } .repos)
            .worktrees) (.ok d4) := by
    show applyAllDataLoaded s1 4 (.ok d4) = _
    rw [applyAllDataLoaded_match s1 4 _ hp1]
    dsimp only
    rw [if_neg]
    rw [applyAllDataResult_needsReload]
    show ¬(s1.needsReload = true)
    rw [hnr1]
    simp
  have hpend2 : (handleWorkerEvent s1 (.allDataLoaded 4 (.ok d4))).pendingAllRequest
      = none := by
    rw [hmid, applyAllDataResult_pending]
    rfl
  have hstale2 : handleWorkerEvent (handleWorkerEvent s1 (.allDataLoaded 4 (.ok d4)))
      (.allDataLoaded 3 r3) = handleWorkerEvent s1 (.allDataLoaded 4 (.ok d4)) := by
    show applyAllDataLoaded _ 3 r3 = _
    exact applyAllDataLoaded_stale _ _ _ (by rw [hpend2]; simp)
  have hAB : processEvents s1 [.allDataLoaded 3 r3, .allDataLoaded 4 (.ok d4)]
      = handleWorkerEvent s1 (.allDataLoaded 4 (.ok d4)) := by
    unfold processEvents
    rw [List.foldl_cons, List.foldl_cons, List.foldl_nil, hstale1]
  have hBA : processEvents s1 [.allDataLoaded 4 (.ok d4), .allDataLoaded 3 r3]
      = handleWorkerEvent s1 (.allDataLoaded 4 (.ok d4)) := by
    unfold processEvents
    rw [List.foldl_cons, List.foldl_cons, List.foldl_nil, hstale2]
  refine ⟨by rw [hAB, hBA], ?_, ?_, ?_, ?_⟩
  · rw [hAB, hmid, applyAllDataResult_ok_repos]
  · rw [hAB, hmid, applyAllDataResult_ok_repoWorktrees]
  · rw [hAB, hmid, applyAllDataResult_ok_repoDisplay]
  · rw [hAB, hstale2]

/-- C1 witness: concrete run from a fresh state with request counter 2; the
surviving data is request 4's. -/
theorem stale_load_discarded_witness :
    (processEvents (requestAllData (requestAllData { emptyApp with requestSeq := 2 }
          false) true)
        [.allDataLoaded 3 (.error "stale"), .allDataLoaded 4 (.ok sampleData)]).repos
      = sampleData.repos :=
  (stale_load_discarded { emptyApp with requestSeq := 2 } (by decide) false true
    (.error "stale") sampleData).2.1

/-! ## C2: FsChanged during a pending load -/

/-- C2: with a `LoadAll` pending, any number of `FsChanged` events sends no
request at all and leaves the same load pending; handling those events
followed by the pending load's completion sends at most one additional
`LoadAll` (the silent reload issued when `needsReload` was set). -/
theorem fs_changed_single_extra_reload (s : AppState) (rid n : Nat)
    (res : Except String AllData) (h : s.pendingAllRequest = some rid) :
    countLoadAll (processEvents s (List.replicate n .fsChanged)).sent
      = countLoadAll s.sent
    ∧ (processEvents s (List.replicate n .fsChanged)).pendingAllRequest = some rid
    ∧ countLoadAll (processEvents s
        (List.replicate n .fsChanged ++ [.allDataLoaded rid res])).sent
      ≤ countLoadAll s.sent + 1 := by
  have hsome : s.pendingAllRequest.isSome = true := by rw [h]; rfl
  have hpre := processEvents_fsChanged_replicate n s hsome
  refine ⟨?_, ?_, ?_⟩
  · rw [hpre]
    by_cases hn : n = 0 <;> simp [hn]
  · rw [hpre]
    by_cases hn : n = 0 <;> simp [hn, h]
  · rw [processEvents_append, hpre]
    by_cases hn : n = 0
    · rw [if_pos hn]
      unfold processEvents
      rw [List.foldl_cons, List.foldl_nil]
      exact applyAllDataLoaded_sent_le s rid res
    · rw [if_neg hn]
      unfold processEvents
      rw [List.foldl_cons, List.foldl_nil]
      have hle := applyAllDataLoaded_sent_le { s with needsReload := true } rid res
      simpa using hle

/-- C2 witness: two filesystem changes during the pending load of the sample
state, then the completion, send at most one extra `LoadAll`. -/
theorem fs_changed_single_extra_reload_witness :
    countLoadAll (processEvents sampleApp
        (List.replicate 2 .fsChanged ++ [.allDataLoaded 1 (.error "e")])).sent
      ≤ countLoadAll sampleApp.sent + 1 :=
  (fs_changed_single_extra_reload sampleApp 1 2 (.error "e") (by decide)).2.2

/-! ## C10: expansion pruning on successful reload -/

/-- C10: after a matching successful `AllDataLoaded` is applied, every name
left in the expanded-repos set is the name of one of the newly loaded repos,
except possibly a repo name inserted to honor a pending desired-worktree
selection. -/
theorem reload_prunes_expansion (s : AppState) (rid : Nat) (data : AllData)
    (h : s.pendingAllRequest = some rid) :
    ∀ nm ∈ (handleWorkerEvent s (.allDataLoaded rid (.ok data))).expandedRepos,
      (∃ r ∈ data.repos, r.name = nm) ∨
        ∃ w, s.desiredWorktreeSelection = some (nm, w) := by
  have hfil : ∀ nm, nm ∈ s.expandedRepos.filter
      (fun name => data.repos.any (fun repo => repo.name == name)) →
      ∃ r ∈ data.repos, r.name = nm := by
    intro nm hnm
    obtain ⟨hmem, hp⟩ := List.mem_filter.mp hnm
    obtain ⟨r, hr, hb⟩ := List.any_eq_true.mp hp
    exact ⟨r, hr, by simpa using hb⟩
  intro nm hnm
  rw [show handleWorkerEvent s (.allDataLoaded rid (.ok data))
        = applyAllDataLoaded s rid (.ok data) from rfl,
      applyAllDataLoaded_match s rid _ h] at hnm
  dsimp only at hnm
  have hexp := applyAllDataResult_ok_expanded
    (clearLoading (clearLoading { s with pendingAllRequest := none } .repos)
      .worktrees) data
  split at hnm
  · rw [requestAllData_expandedRepos] at hnm
    dsimp only at hnm
    rw [hexp] at hnm
    dsimp only [clearLoading] at hnm
    rcases hdw : s.desiredWorktreeSelection with _ | ⟨rn, wn⟩ <;>
      simp only [hdw] at hnm
    · exact .inl (hfil nm hnm)
    · rcases mem_insertSet hnm with h1 | h1
      · exact .inl (hfil nm h1)
      · exact .inr ⟨wn, by rw [h1]⟩
  · rw [hexp] at hnm
    rcases hdw : s.desiredWorktreeSelection with _ | ⟨rn, wn⟩ <;>
      simp only [hdw] at hnm
    · exact .inl (hfil nm hnm)
    · rcases mem_insertSet hnm with h1 | h1
      · exact .inl (hfil nm h1)
      · exact .inr ⟨wn, by rw [h1]⟩

/-- C10 witness: in the populated sample state, after a matching successful
reload the surviving expanded name "alpha" belongs to the loaded repo
list. -/
theorem reload_prunes_expansion_witness :
    ("alpha" ∈ (handleWorkerEvent sampleApp
        (.allDataLoaded 1 (.ok sampleData))).expandedRepos)
    ∧ ((∃ r ∈ sampleData.repos, r.name = "alpha")
        ∨ ∃ w, sampleApp.desiredWorktreeSelection = some ("alpha", w)) :=
  ⟨by decide, reload_prunes_expansion sampleApp 1 sampleData (by decide) "alpha"
    (by decide)⟩

end Bbq
